import Mathlib

/-!
Shallow embedding of `src/sigmadsp/sigmastudio/header.py`: the `Field` and
`PacketHeader` data model, layout validation, serialization and parsing, the
semantic predicates, and opcode dispatch of `PacketHeaderGenerator`.

Conventions: Python `bytes` values are lists of byte values (`List Nat`),
Python `int` is `Int`, and a raised exception is an `Except`/`Option` error
result carrying the exception class and message.
-/

deriving instance DecidableEq for Except

namespace Sigmadsp

/-- Exception classes raised by the header module: `ValueError`, `MemoryError`
(from `_check_for_overlaps`), `KeyError` (dict lookup) and `AssertionError`
(the `assert` in `new_header_from_operation_byte`). -/
inductive PyError where
  | valueError (msg : String)
  | memoryError (msg : String)
  | keyError (key : String)
  | assertionError (msg : String)
deriving DecidableEq

/-- Big-endian encoding of a natural number into exactly `n` bytes
(most significant byte first); helper for the modelled byte codec. -/
def beBytes : Nat → Nat → List Nat
  | 0, _ => []
  | n + 1, v => beBytes n (v / 256) ++ [v % 256]

/-- Big-endian decoding of a byte list; helper for the modelled byte codec. -/
def beDecode (bs : List Nat) : Nat :=
  bs.foldl (fun acc b => acc * 256 + b) 0

/-- Modelled from the spec: `sigmadsp.helper.conversion.bytes_to_int` is imported
by the source module but its code is not part of this repository slice. Spec
section 6 fixes the contract: decode the big-endian integer stored in the byte
range of width `length` starting at `offset`. An out-of-range slice is clipped,
as Python slicing clips. -/
def bytes_to_int (data : List Nat) (offset length : Int) : Int :=
  (beDecode ((data.drop offset.toNat).take length.toNat) : Nat)

/-- Modelled from the spec: `sigmadsp.helper.conversion.int_to_bytes` is imported
by the source module but its code is not part of this repository slice. Spec
section 6 fixes the contract: write `value` big-endian into the byte range
`[offset, offset + size)` of `buffer`. The buffer is grown with zero bytes as
needed: the source passes a fresh empty `bytearray` to the first call and writes
fields at increasing offsets, so the codec must extend the buffer. The spec
(section 9) leaves the treatment of values wider than `size` bytes open; this
model keeps the low `size` bytes. -/
def int_to_bytes (value : Int) (buffer : List Nat) (offset size : Int) : List Nat :=
  let o := offset.toNat
  let s := size.toNat
  let padded := buffer ++ List.replicate (o + s - buffer.length) 0
  padded.take o ++ beBytes s (value.toNat % 256 ^ s) ++ padded.drop (o + s)

/-- The `OperationKey` enum: the protocol's closed opcode set. -/
inductive OperationKey where
  | READ_REQUEST_KEY
  | READ_RESPONSE_KEY
  | WRITE_KEY
deriving DecidableEq

/-- The integer value of each `OperationKey` member (`0x0A`, `0x0B`, `0x09`). -/
def OperationKey.value : OperationKey → Int
  | .READ_REQUEST_KEY => 0x0A
  | .READ_RESPONSE_KEY => 0x0B
  | .WRITE_KEY => 0x09

/-- The enum constructor call `OperationKey(v)`: yields the member with value
`v`; `none` stands for the `ValueError` Python raises for an unknown value. -/
def OperationKey.fromValue (v : Int) : Option OperationKey :=
  if v = 0x0A then some .READ_REQUEST_KEY
  else if v = 0x0B then some .READ_RESPONSE_KEY
  else if v = 0x09 then some .WRITE_KEY
  else none

/-- The `Field` dataclass: `name`, `offset`, `size` and the mutable `value`
(default 0). The derived attribute `end` is set in `__post_init__` and is not a
dataclass field. -/
structure Field where
  name : String
  offset : Int
  size : Int
  value : Int
deriving DecidableEq

/-- The derived attribute `end = offset + size - 1`, the last byte index
occupied by the field (`end` is a Lean keyword, hence `endByte`). -/
def Field.endByte (f : Field) : Int := f.offset + f.size - 1

/-- The `Field(...)` constructor with its `__post_init__` validation: a negative
`size`, then a negative `offset`, raises `ValueError`. -/
def Field.make (name : String) (offset size : Int) (value : Int := 0) :
    Except PyError Field :=
  if size < 0 then .error (.valueError "Field size must be a positive integer.")
  else if offset < 0 then .error (.valueError "Field offset must be a positive integer.")
  else .ok { name := name, offset := offset, size := size, value := value }

/-- The dataclass-generated `Field.__eq__`: dataclasses compare the tuple of all
declared fields, here `(name, offset, size, value)`; the derived `end` is not a
dataclass field and does not participate. Note that `value` *is* compared. -/
def Field.pyEq (f g : Field) : Bool :=
  f.name == g.name && f.offset == g.offset && f.size == g.size && f.value == g.value

/-- Python equality between a `Field` instance and a `str` dict key, as evaluated
by `field in self._fields` inside `PacketHeader.__contains__` when `add_field`
passes a `Field` object: the dataclass `__eq__` returns `NotImplemented` for a
non-`Field` operand and `str.__eq__` likewise, so Python falls back to identity
and the comparison is `False` for every field/key pair. -/
def pyFieldEqStr (f : Field) (key : String) : Bool := false

/-- Python equality between an `int` field value and an `OperationKey` member, as
evaluated by `self._fields["operation"].value == OperationKey.WRITE_KEY` and its
siblings: `int.__eq__` returns `NotImplemented` for an `Enum` operand and a plain
`enum.Enum` inherits identity-based `object.__eq__`, so the comparison is `False`
for every integer, whatever the member's numeric value. -/
def pyIntEqOperationKey (v : Int) (k : OperationKey) : Bool := false

/-- `PacketHeader._fields`: an `OrderedDict` from field name to `Field`, kept
sorted by offset. Modelled as the list of stored fields in dict order; the key
of each entry is its field's `name`, since `add_field` stores under
`field.name`. -/
structure PacketHeader where
  fields : List Field
deriving DecidableEq

/-- Dict assignment `self._fields[field.name] = field`: replaces the value of the
entry whose key equals `field.name`, keeping its position, or appends a new
entry at the end. -/
def dictSet (fs : List Field) (f : Field) : List Field :=
  match fs with
  | [] => [f]
  | g :: gs => if g.name == f.name then f :: gs else g :: dictSet gs f

/-- The sort key comparison of `_sort_fields_by_offset`:
`sorted(..., key=lambda item: item[1].offset)`. -/
def Field.leOffset (a b : Field) : Prop := a.offset ≤ b.offset

instance : DecidableRel Field.leOffset :=
  fun a b => inferInstanceAs (Decidable (a.offset ≤ b.offset))

/-- `PacketHeader._sort_fields_by_offset`: Python `sorted` is a stable sort by
`item[1].offset`; insertion sort with the non-strict comparison is stable in
the same sense. -/
def sortFieldsByOffset (fs : List Field) : List Field :=
  List.insertionSort Field.leOffset fs

/-- `PacketHeader._check_for_overlaps`: scans the adjacent pairs of the
offset-sorted field list (`zip(fields_entries, fields_entries[1:])`) and raises
`MemoryError` at the first pair with `not field.end <= next_field.offset`. The
source message is a plain string (no f-prefix), so its braces are literal. -/
def checkForOverlaps : List Field → Option PyError
  | f :: g :: rest =>
      if f.endByte ≤ g.offset then checkForOverlaps (g :: rest)
      else some (.memoryError "Fields \x7bfield.name\x7d and \x7bnext_field.name\x7d overlap.")
  | _ => none

/-- `PacketHeader.add_field`. The guard `if field not in self` invokes
`__contains__` with a `Field` object, which is compared against the dict's
string keys (`pyFieldEqStr`), so the guard never suppresses an insertion. The
field is stored under its name, the dict re-sorted by offset, and the overlap
check run; `Except.error` models the raised `MemoryError`. -/
def PacketHeader.add_field (h : PacketHeader) (field : Field) :
    Except PyError PacketHeader :=
  if h.fields.any (fun g => pyFieldEqStr field g.name) then .ok h
  else
    let sorted := sortFieldsByOffset (dictSet h.fields field)
    match checkForOverlaps sorted with
    | some e => .error e
    | none => .ok { fields := sorted }

/-- `PacketHeader.add`: constructs the `Field` (running its validation) and
delegates to `add_field`. -/
def PacketHeader.add (h : PacketHeader) (name : String) (offset size : Int)
    (value : Int := 0) : Except PyError PacketHeader :=
  match Field.make name offset size value with
  | .error e => .error e
  | .ok f => h.add_field f

/-- `PacketHeader.__init__`: starts from an empty `OrderedDict` and calls
`add_field` on each initial field in order; the first raised error
propagates. -/
def PacketHeader.init (fs : List Field) : Except PyError PacketHeader :=
  fs.foldlM PacketHeader.add_field { fields := [] }

/-- `PacketHeader.size`: `sum([field.size for field in self])`. -/
def PacketHeader.size (h : PacketHeader) : Int :=
  (h.fields.map Field.size).sum

/-- The adjacent-pair scan of `is_continuous`: `False` at the first pair with
`(field.end + 1) != next_field.offset`, else `True`. -/
def continuousPairs : List Field → Bool
  | f :: g :: rest => (f.endByte + 1 == g.offset) && continuousPairs (g :: rest)
  | _ => true

/-- `PacketHeader.is_continuous`: no undefined gaps between adjacent fields of
the offset-sorted list. -/
def PacketHeader.is_continuous (h : PacketHeader) : Bool :=
  continuousPairs h.fields

/-- `PacketHeader.as_bytes`: folds `int_to_bytes` over the fields in stored
(offset) order, starting from a fresh empty buffer. -/
def PacketHeader.as_bytes (h : PacketHeader) : List Nat :=
  h.fields.foldl (fun buffer f => int_to_bytes f.value buffer f.offset f.size) []

/-- `PacketHeader.as_list`: the stored fields as a list. -/
def PacketHeader.as_list (h : PacketHeader) : List Field :=
  h.fields

/-- `PacketHeader.parse`: returns the final header state paired with the raised
error, if any. The length check precedes the mutation loop, so on failure the
state is the unchanged input header; otherwise every field's value is decoded
from its byte range of `data`. -/
def PacketHeader.parse (h : PacketHeader) (data : List Nat) :
    PacketHeader × Option PyError :=
  if (data.length : Int) ≠ h.size then
    (h, some (.valueError ("Input data needs to be exactly " ++ toString h.size ++ " bytes long!")))
  else
    ({ fields := h.fields.map fun f => { f with value := bytes_to_int data f.offset f.size } },
      none)

/-- Dict lookup `self._fields[name]` as an `Option` (field names are the unique
dict keys); `none` stands for the raised `KeyError`. -/
def PacketHeader.find? (h : PacketHeader) (name : String) : Option Field :=
  h.fields.find? fun f => f.name == name

/-- `PacketHeader.__contains__`: key membership among the dict's field names. -/
def PacketHeader.contains (h : PacketHeader) (name : String) : Bool :=
  h.fields.any fun f => f.name == name

/-- `PacketHeader.is_write_request`:
`self._fields["operation"].value == OperationKey.WRITE_KEY`, an int-vs-enum
comparison (`pyIntEqOperationKey`); a missing key raises `KeyError`. -/
def PacketHeader.is_write_request (h : PacketHeader) : Except PyError Bool :=
  match h.find? "operation" with
  | none => .error (.keyError "operation")
  | some f => .ok (pyIntEqOperationKey f.value .WRITE_KEY)

/-- `PacketHeader.is_read_request`:
`self._fields["operation"].value == OperationKey.READ_REQUEST_KEY`. -/
def PacketHeader.is_read_request (h : PacketHeader) : Except PyError Bool :=
  match h.find? "operation" with
  | none => .error (.keyError "operation")
  | some f => .ok (pyIntEqOperationKey f.value .READ_REQUEST_KEY)

/-- `PacketHeader.is_read_response`:
`self._fields["operation"].value == OperationKey.READ_RESPONSE_KEY`. -/
def PacketHeader.is_read_response (h : PacketHeader) : Except PyError Bool :=
  match h.find? "operation" with
  | none => .error (.keyError "operation")
  | some f => .ok (pyIntEqOperationKey f.value .READ_RESPONSE_KEY)

/-- `PacketHeader.is_safeload`:
`self.is_write_request and self._fields["safeload"].value == 1`, with Python
short-circuit evaluation: the `safeload` lookup happens only when
`is_write_request` is truthy. -/
def PacketHeader.is_safeload (h : PacketHeader) : Except PyError Bool :=
  match h.is_write_request with
  | .error e => .error e
  | .ok false => .ok false
  | .ok true =>
      match h.find? "safeload" with
      | none => .error (.keyError "safeload")
      | some f => .ok (f.value == 1)

/-- `PacketHeader.carries_payload`:
`self.is_write_request or self.is_read_response`, with Python short-circuit
evaluation. -/
def PacketHeader.carries_payload (h : PacketHeader) : Except PyError Bool :=
  match h.is_write_request with
  | .error e => .error e
  | .ok true => .ok true
  | .ok false => h.is_read_response

/-- `PacketHeaderGenerator`: the abstract base class with three required static
header factories, modelled by the three headers a concrete generator
produces. -/
structure PacketHeaderGenerator where
  new_write_header : PacketHeader
  new_read_request_header : PacketHeader
  new_read_response_header : PacketHeader

/-- `PacketHeaderGenerator.new_header_from_operation_byte`: asserts a one-byte
input (`AssertionError`), decodes it with `bytes_to_int`, constructs
`OperationKey` (raising `ValueError` on unknown values) and dispatches to the
matching factory. The source's final `else: raise ValueError(...)` branch is
unreachable, the enum constructor having already rejected unknown values; the
exhaustive match mirrors that. -/
def PacketHeaderGenerator.new_header_from_operation_byte
    (g : PacketHeaderGenerator) (operation_byte : List Nat) :
    Except PyError PacketHeader :=
  if operation_byte.length ≠ 1 then
    .error (.assertionError "Operation byte must have a length of 1.")
  else
    let v := bytes_to_int operation_byte 0 1
    match OperationKey.fromValue v with
    | none => .error (.valueError (toString v ++ " is not a valid OperationKey"))
    | some .READ_REQUEST_KEY => .ok g.new_read_request_header
    | some .READ_RESPONSE_KEY => .ok g.new_read_response_header
    | some .WRITE_KEY => .ok g.new_write_header

/-- A header layout laid out back-to-back from byte offset `o`: each field
starts exactly where its predecessor ends (helper for round-trip analysis). -/
def contiguousFrom : Int → List Field → Bool
  | _, [] => true
  | o, f :: fs => f.offset == o && contiguousFrom (o + f.size) fs

/-- The concatenation of each field's encoded value, in stored order (helper
for round-trip analysis). -/
def layoutBytes : List Field → List Nat
  | [] => []
  | f :: fs => beBytes f.size.toNat (f.value.toNat % 256 ^ f.size.toNat) ++ layoutBytes fs

/-! ### Helper lemmas about the byte codec -/

theorem beBytes_length (n v : Nat) : (beBytes n v).length = n := by
  induction n generalizing v with
  | zero => rfl
  | succ n ih => simp [beBytes, ih]

theorem beDecode_snoc (bs : List Nat) (b : Nat) :
    beDecode (bs ++ [b]) = beDecode bs * 256 + b := by
  simp [beDecode, List.foldl_append]

theorem beDecode_beBytes (n v : Nat) (hv : v < 256 ^ n) :
    beDecode (beBytes n v) = v := by
  induction n generalizing v with
  | zero =>
      interval_cases v
      rfl
  | succ n ih =>
      have hdiv : v / 256 < 256 ^ n := by
        rw [Nat.div_lt_iff_lt_mul (by norm_num)]
        calc v < 256 ^ (n + 1) := hv
        _ = 256 ^ n * 256 := by ring
      rw [beBytes, beDecode_snoc, ih (v / 256) hdiv]
      omega

/-- Writing at the current end of the buffer appends the encoded bytes. -/
theorem int_to_bytes_append (v : Int) (buf : List Nat) (o s : Int)
    (ho : o.toNat = buf.length) :
    int_to_bytes v buf o s = buf ++ beBytes s.toNat (v.toNat % 256 ^ s.toNat) := by
  simp only [int_to_bytes]
  have h1 : o.toNat + s.toNat - buf.length = s.toNat := by omega
  rw [h1, ho]
  have h2 : (buf ++ List.replicate s.toNat 0).take buf.length = buf :=
    List.take_left buf (List.replicate s.toNat 0)
  have h3 : (buf ++ List.replicate s.toNat 0).drop (buf.length + s.toNat) = [] := by
    apply List.drop_eq_nil_of_le
    simp
  rw [h2, h3, List.append_nil]

/-- Serializing a layout that is laid out back-to-back starting at the current
buffer end appends each field's encoded value in order. -/
theorem foldl_int_to_bytes (fs : List Field) (buf : List Nat) (o : Int)
    (ho : 0 ≤ o) (hlen : buf.length = o.toNat)
    (hc : contiguousFrom o fs = true)
    (hsz : ∀ f ∈ fs, 0 ≤ f.size) :
    fs.foldl (fun b f => int_to_bytes f.value b f.offset f.size) buf
      = buf ++ layoutBytes fs := by
  induction fs generalizing buf o with
  | nil => simp [layoutBytes]
  | cons f fs ih =>
      rw [contiguousFrom, Bool.and_eq_true, beq_iff_eq] at hc
      obtain ⟨hco, hcrest⟩ := hc
      have hfs : 0 ≤ f.size := hsz f (List.mem_cons_self f fs)
      have hstep : int_to_bytes f.value buf f.offset f.size
          = buf ++ beBytes f.size.toNat (f.value.toNat % 256 ^ f.size.toNat) := by
        apply int_to_bytes_append
        rw [hco, hlen]
      rw [List.foldl_cons, hstep]
      have hlen' : (buf ++ beBytes f.size.toNat (f.value.toNat % 256 ^ f.size.toNat)).length
          = (o + f.size).toNat := by
        simp [beBytes_length]
        omega
      rw [ih _ (o + f.size) (by omega) hlen' hcrest
        (fun g hg => hsz g (List.mem_cons_of_mem f hg))]
      rw [layoutBytes, List.append_assoc]

theorem layoutBytes_length (fs : List Field) (hsz : ∀ f ∈ fs, 0 ≤ f.size) :
    ((layoutBytes fs).length : Int) = (fs.map Field.size).sum := by
  induction fs with
  | nil => simp [layoutBytes]
  | cons f fs ih =>
      have hf : 0 ≤ f.size := hsz f (List.mem_cons_self f fs)
      have := ih (fun g hg => hsz g (List.mem_cons_of_mem f hg))
      simp [layoutBytes, beBytes_length]
      push_cast at this ⊢
      omega

/-- Parsing a buffer whose suffix from offset `o` holds the back-to-back encoded
field values restores every field's value. -/
theorem map_bytes_to_int_restore (fs : List Field) (data : List Nat) (o : Int)
    (ho : 0 ≤ o)
    (hc : contiguousFrom o fs = true)
    (hsz : ∀ f ∈ fs, 0 ≤ f.size)
    (hfit : ∀ f ∈ fs, 0 ≤ f.value ∧ f.value < (256 : Int) ^ f.size.toNat)
    (hdata : data.drop o.toNat = layoutBytes fs) :
    fs.map (fun f => { f with value := bytes_to_int data f.offset f.size }) = fs := by
  induction fs generalizing o with
  | nil => rfl
  | cons f fs ih =>
      rw [contiguousFrom, Bool.and_eq_true, beq_iff_eq] at hc
      obtain ⟨hco, hcrest⟩ := hc
      have hf0 : 0 ≤ f.size := hsz f (List.mem_cons_self f fs)
      have hffit := hfit f (List.mem_cons_self f fs)
      have hvfit : f.value.toNat < 256 ^ f.size.toNat := by
        zify
        rw [Int.toNat_of_nonneg hffit.1]
        exact hffit.2
      rw [layoutBytes] at hdata
      have hdec : bytes_to_int data f.offset f.size = f.value := by
        unfold bytes_to_int
        rw [hco, hdata]
        have htake : ((beBytes f.size.toNat (f.value.toNat % 256 ^ f.size.toNat)
            ++ layoutBytes fs).take f.size.toNat)
            = beBytes f.size.toNat (f.value.toNat % 256 ^ f.size.toNat) := by
          have := List.take_left (beBytes f.size.toNat (f.value.toNat % 256 ^ f.size.toNat))
            (layoutBytes fs)
          rwa [beBytes_length] at this
        rw [htake, beDecode_beBytes _ _ (Nat.mod_lt _ (by positivity)),
          Nat.mod_eq_of_lt hvfit, Int.toNat_of_nonneg hffit.1]
      have hdata' : data.drop (o + f.size).toNat = layoutBytes fs := by
        have hfs : 0 ≤ f.size := hsz f (List.mem_cons_self f fs)
        have hsplit : (o + f.size).toNat = o.toNat + f.size.toNat := by omega
        rw [hsplit, ← List.drop_drop, hdata]
        have := List.drop_left (beBytes f.size.toNat (f.value.toNat % 256 ^ f.size.toNat))
          (layoutBytes fs)
        rwa [beBytes_length] at this
      rw [List.map_cons, hdec]
      have : { f with value := f.value } = f := rfl
      rw [this, ih (o + f.size) (by omega) hcrest
        (fun g hg => hsz g (List.mem_cons_of_mem f hg))
        (fun g hg => hfit g (List.mem_cons_of_mem f hg)) hdata']

/-! ### Helper lemmas about the field dictionary and continuity scan -/

theorem continuousPairs_iff_chain (fs : List Field) :
    continuousPairs fs = true
      ↔ List.Chain' (fun f g => f.endByte + 1 = g.offset) fs := by
  induction fs with
  | nil => simp [continuousPairs]
  | cons f fs ih =>
      cases fs with
      | nil => simp [continuousPairs]
      | cons g rest =>
          rw [continuousPairs, Bool.and_eq_true, beq_iff_eq, List.chain'_cons]
          exact and_congr Iff.rfl ih

theorem mem_dictSet_self (fs : List Field) (f : Field) : f ∈ dictSet fs f := by
  induction fs with
  | nil => simp [dictSet]
  | cons g gs ih =>
      rw [dictSet]
      split
      · exact List.mem_cons_self _ _
      · exact List.mem_cons_of_mem _ ih

theorem eq_of_mem_dictSet (fs : List Field) (f : Field)
    (hnd : (fs.map Field.name).Nodup) :
    ∀ g ∈ dictSet fs f, g.name = f.name → g = f := by
  induction fs with
  | nil =>
      intro g hg _
      simpa [dictSet] using hg
  | cons a gs ih =>
      rw [List.map_cons, List.nodup_cons] at hnd
      obtain ⟨hna, hnd'⟩ := hnd
      intro g hg hname
      rw [dictSet] at hg
      split at hg
      case isTrue hcase =>
        rcases List.mem_cons.mp hg with hgf | hgs
        · exact hgf
        · exfalso
          apply hna
          rw [beq_iff_eq] at hcase
          rw [hcase, ← hname]
          exact List.mem_map_of_mem Field.name hgs
      case isFalse hcase =>
        rcases List.mem_cons.mp hg with hga | hgs
        · exfalso
          rw [beq_iff_eq] at hcase
          exact hcase (hga ▸ hname)
        · exact ih hnd' g hgs hname

theorem mem_names_dictSet (fs : List Field) (f : Field) :
    ∀ x ∈ (dictSet fs f).map Field.name, x ∈ fs.map Field.name ∨ x = f.name := by
  induction fs with
  | nil =>
      intro x hx
      right
      simpa [dictSet] using hx
  | cons a gs ih =>
      intro x hx
      rw [dictSet] at hx
      split at hx
      case isTrue hcase =>
        rw [beq_iff_eq] at hcase
        rw [List.map_cons] at hx
        rcases List.mem_cons.mp hx with hxf | hxs
        · right
          exact hxf
        · left
          rw [List.map_cons]
          exact List.mem_cons_of_mem _ hxs
      case isFalse hcase =>
        rw [List.map_cons] at hx
        rcases List.mem_cons.mp hx with hxa | hxs
        · left
          rw [List.map_cons]
          exact hxa ▸ List.mem_cons_self _ _
        · rcases ih x hxs with hmem | heq
          · left
            rw [List.map_cons]
            exact List.mem_cons_of_mem _ hmem
          · right
            exact heq

theorem nodup_names_dictSet (fs : List Field) (f : Field)
    (hnd : (fs.map Field.name).Nodup) :
    ((dictSet fs f).map Field.name).Nodup := by
  induction fs with
  | nil => simp [dictSet]
  | cons a gs ih =>
      rw [List.map_cons, List.nodup_cons] at hnd
      obtain ⟨hna, hnd'⟩ := hnd
      rw [dictSet]
      split
      case isTrue hcase =>
        rw [beq_iff_eq] at hcase
        rw [List.map_cons, List.nodup_cons]
        exact ⟨hcase ▸ hna, hnd'⟩
      case isFalse hcase =>
        rw [beq_iff_eq] at hcase
        rw [List.map_cons, List.nodup_cons]
        refine ⟨fun hmem => ?_, ih hnd'⟩
        rcases mem_names_dictSet gs f a.name hmem with hmem' | heq
        · exact hna hmem'
        · exact hcase heq

/-! ### Claim theorems -/

/-- C1: the claim states that adding a `Field` whose identity
`(name, offset, size)` is already present leaves the header's field set and
every stored value unchanged. Evaluating `add_field` at the failing input shows
otherwise: on a header storing `Field("safeload", 0, 1, value=5)`, adding
`Field("safeload", 0, 1, value=7)` — same identity triple — succeeds and
*replaces* the stored field, changing the stored value from 5 to 7, because the
duplicate guard `if field not in self` compares the `Field` object against the
dict's string keys and never fires. -/
theorem C1_duplicate_identity_is_overwritten :
    ((⟨"safeload", 0, 1, 5⟩ : Field).name = (⟨"safeload", 0, 1, 7⟩ : Field).name
      ∧ (⟨"safeload", 0, 1, 5⟩ : Field).offset = (⟨"safeload", 0, 1, 7⟩ : Field).offset
      ∧ (⟨"safeload", 0, 1, 5⟩ : Field).size = (⟨"safeload", 0, 1, 7⟩ : Field).size)
    ∧ (PacketHeader.mk [⟨"safeload", 0, 1, 5⟩]).add_field ⟨"safeload", 0, 1, 7⟩
        = .ok (PacketHeader.mk [⟨"safeload", 0, 1, 7⟩]) := by
  decide

/-- C2: the claim states that inserting a field whose byte range shares at least
one byte with an existing field — including the boundary case where the earlier
field's last occupied byte equals the later field's offset — is rejected with a
layout error. Evaluating `add_field` at the failing input shows otherwise: with
`Field("address", 0, 2)` occupying bytes 0..1 (its `end` is 1), adding
`Field("success", 1, 1)` occupying byte 1 shares byte 1, yet the check
`field.end <= next_field.offset` holds with equality and the insertion is
accepted. -/
theorem C2_boundary_overlap_not_rejected :
    ((⟨"address", 0, 2, 0⟩ : Field).endByte = 1
      ∧ (⟨"success", 1, 1, 0⟩ : Field).offset = 1
      ∧ (⟨"success", 1, 1, 0⟩ : Field).endByte = 1)
    ∧ (PacketHeader.mk [⟨"address", 0, 2, 0⟩]).add_field ⟨"success", 1, 1, 0⟩
        = .ok (PacketHeader.mk [⟨"address", 0, 2, 0⟩, ⟨"success", 1, 1, 0⟩]) := by
  decide

/-- C3: the claim states that a header whose `operation` value is the write
opcode 0x09 and whose `safeload` value is 1 reports `is_write_request`,
`is_safeload` and `carries_payload` all true, and a header whose `operation`
value is 0x0A reports `carries_payload` false. Evaluating the predicates at the
failing input shows the first half fails: all three predicates return `False`,
because the `int` field value is compared against a plain `Enum` member and such
a comparison is always `False` in Python. (The 0x0A half holds, but for the same
degenerate reason.) -/
theorem C3_predicates_false_on_write_opcode :
    ((PacketHeader.mk [⟨"operation", 0, 1, 0x09⟩, ⟨"safeload", 1, 1, 1⟩]).is_write_request
        = .ok false
      ∧ (PacketHeader.mk [⟨"operation", 0, 1, 0x09⟩, ⟨"safeload", 1, 1, 1⟩]).is_safeload
        = .ok false
      ∧ (PacketHeader.mk [⟨"operation", 0, 1, 0x09⟩, ⟨"safeload", 1, 1, 1⟩]).carries_payload
        = .ok false)
    ∧ (PacketHeader.mk [⟨"operation", 0, 1, 0x0A⟩]).carries_payload = .ok false := by
  decide

/-- C4 counterexample: the claim states that for *every* structurally valid
header (construction raised no layout error) with populated values,
`parse(as_bytes())` succeeds and reproduces the values. The header built from
`Field("address", 0, 4, value=1)` and `Field("success", 5, 1, value=2)` is
accepted by construction (no overlap), but it has a one-byte gap: `as_bytes`
produces 6 bytes while `size` is 5, so `parse` rejects its own serialization. -/
theorem C4_round_trip_counterexample :
    PacketHeader.init [⟨"address", 0, 4, 1⟩, ⟨"success", 5, 1, 2⟩]
        = .ok (PacketHeader.mk [⟨"address", 0, 4, 1⟩, ⟨"success", 5, 1, 2⟩])
    ∧ (PacketHeader.mk [⟨"address", 0, 4, 1⟩, ⟨"success", 5, 1, 2⟩]).as_bytes.length = 6
    ∧ (PacketHeader.mk [⟨"address", 0, 4, 1⟩, ⟨"success", 5, 1, 2⟩]).size = 5
    ∧ ((PacketHeader.mk [⟨"address", 0, 4, 1⟩, ⟨"success", 5, 1, 2⟩]).parse
        (PacketHeader.mk [⟨"address", 0, 4, 1⟩, ⟨"success", 5, 1, 2⟩]).as_bytes).2.isSome
        = true := by
  decide

/-- C4 (amended): for every header whose fields tile the byte range from offset
0 back-to-back (no gaps, no overlaps, first field at offset 0) and whose field
values each fit their field's byte width, `parse (as_bytes ())` succeeds and
leaves every field — in particular every field value — exactly as before. -/
theorem C4_round_trip_amended (h : PacketHeader)
    (hc : contiguousFrom 0 h.fields = true)
    (hsz : ∀ f ∈ h.fields, 0 ≤ f.size)
    (hfit : ∀ f ∈ h.fields, 0 ≤ f.value ∧ f.value < (256 : Int) ^ f.size.toNat) :
    h.parse h.as_bytes = (h, none) := by
  have hb : h.as_bytes = layoutBytes h.fields := by
    have := foldl_int_to_bytes h.fields [] 0 le_rfl rfl hc hsz
    simpa [PacketHeader.as_bytes] using this
  have hlen : ((h.as_bytes.length : Nat) : Int) = h.size := by
    rw [hb]
    exact layoutBytes_length h.fields hsz
  rw [PacketHeader.parse, if_neg (by rw [hlen]; exact fun hne => hne rfl)]
  have hfields : h.fields.map
      (fun f => { f with value := bytes_to_int h.as_bytes f.offset f.size }) = h.fields := by
    apply map_bytes_to_int_restore h.fields h.as_bytes 0 le_rfl hc hsz hfit
    rw [hb]
    exact List.drop_zero _
  rw [hfields]

/-- C4 witness: a contiguous two-field header (operation byte plus a two-byte
address holding 300) round-trips through `as_bytes` and `parse`. -/
theorem C4_round_trip_witness :
    (PacketHeader.mk [⟨"operation", 0, 1, 9⟩, ⟨"address", 1, 2, 300⟩]).parse
        (PacketHeader.mk [⟨"operation", 0, 1, 9⟩, ⟨"address", 1, 2, 300⟩]).as_bytes
      = (PacketHeader.mk [⟨"operation", 0, 1, 9⟩, ⟨"address", 1, 2, 300⟩], none) :=
  C4_round_trip_amended _ (by decide) (by decide) (by decide)

/-- C5 counterexample: the claim states two `Field`s are equal exactly when
their `(name, offset, size)` triples match, `value` being excluded. The two
fields below agree on the triple but differ in `value`, and the dataclass
equality `Field.__eq__` reports them *unequal*: `value` is part of equality. -/
theorem C5_field_eq_counterexample :
    ((⟨"address", 0, 1, 0⟩ : Field).name = (⟨"address", 0, 1, 1⟩ : Field).name
      ∧ (⟨"address", 0, 1, 0⟩ : Field).offset = (⟨"address", 0, 1, 1⟩ : Field).offset
      ∧ (⟨"address", 0, 1, 0⟩ : Field).size = (⟨"address", 0, 1, 1⟩ : Field).size)
    ∧ Field.pyEq ⟨"address", 0, 1, 0⟩ ⟨"address", 0, 1, 1⟩ = false := by
  decide

/-- C5 (amended): `Field.__eq__` — the dataclass-generated equality — holds
exactly when all four declared attributes `(name, offset, size, value)` match;
the `(name, offset, size)` triple alone is what `__hash__` uses, but equality
does compare `value`. -/
theorem C5_field_eq_includes_value (f g : Field) :
    Field.pyEq f g = true
      ↔ f.name = g.name ∧ f.offset = g.offset ∧ f.size = g.size ∧ f.value = g.value := by
  simp [Field.pyEq, and_assoc]

/-- C6: dispatch correctness of `new_header_from_operation_byte`. A one-byte
input decoding to 0x0A yields the read-request factory's header, 0x0B the
read-response factory's header, 0x09 the write factory's header, and any other
byte value a `ValueError` (the unknown-opcode validation error, raised by the
`OperationKey` constructor); an input that is not exactly one byte long fails
the `assert` (the precondition error). -/
theorem C6_dispatch_correct (g : PacketHeaderGenerator) (b : Nat) (hb : b < 256)
    (bs : List Nat) (hlen : bs.length ≠ 1) :
    (g.new_header_from_operation_byte [b]
      = if b = 0x0A then .ok g.new_read_request_header
        else if b = 0x0B then .ok g.new_read_response_header
        else if b = 0x09 then .ok g.new_write_header
        else .error (.valueError (toString (b : Int) ++ " is not a valid OperationKey")))
    ∧ g.new_header_from_operation_byte bs
        = .error (.assertionError "Operation byte must have a length of 1.") := by
  constructor
  · have hv : bytes_to_int [b] 0 1 = (b : Int) := by
      simp [bytes_to_int, beDecode]
    simp only [PacketHeaderGenerator.new_header_from_operation_byte, List.length_cons,
      List.length_nil, hv]
    rw [if_neg (by simp)]
    unfold OperationKey.fromValue
    by_cases h1 : b = 10
    · subst h1
      norm_num
    · by_cases h2 : b = 11
      · subst h2
        norm_num
      · by_cases h3 : b = 9
        · subst h3
          norm_num
        · have g1 : ¬ ((b : Int) = 10) := by omega
          have g2 : ¬ ((b : Int) = 11) := by omega
          have g3 : ¬ ((b : Int) = 9) := by omega
          rw [if_neg g1, if_neg g2, if_neg g3, if_neg h1, if_neg h2, if_neg h3]
  · simp only [PacketHeaderGenerator.new_header_from_operation_byte]
    rw [if_pos hlen]

/-- C6 witness: a concrete generator dispatches the byte 0x0A to its
read-request header, and rejects an empty input with the assertion error. -/
theorem C6_dispatch_witness :
    (PacketHeaderGenerator.mk (PacketHeader.mk [⟨"operation", 0, 1, 9⟩])
        (PacketHeader.mk [⟨"operation", 0, 1, 10⟩])
        (PacketHeader.mk [⟨"operation", 0, 1, 11⟩])).new_header_from_operation_byte [10]
      = .ok (PacketHeader.mk [⟨"operation", 0, 1, 10⟩])
    ∧ (PacketHeaderGenerator.mk (PacketHeader.mk [⟨"operation", 0, 1, 9⟩])
        (PacketHeader.mk [⟨"operation", 0, 1, 10⟩])
        (PacketHeader.mk [⟨"operation", 0, 1, 11⟩])).new_header_from_operation_byte []
      = .error (.assertionError "Operation byte must have a length of 1.") := by
  have h := C6_dispatch_correct
    (PacketHeaderGenerator.mk (PacketHeader.mk [⟨"operation", 0, 1, 9⟩])
      (PacketHeader.mk [⟨"operation", 0, 1, 10⟩])
      (PacketHeader.mk [⟨"operation", 0, 1, 11⟩]))
    10 (by decide) [] (by decide)
  revert h
  decide

/-- C7: `parse` length enforcement and atomicity. On a buffer whose length
differs from the header's `size`, `parse` raises the `ValueError` before the
mutation loop, so the header state is unchanged; on a buffer of exactly `size`
bytes it populates every field's value by decoding that field's byte range. -/
theorem C7_parse_length_enforcement (h : PacketHeader) (d1 d2 : List Nat)
    (h1 : (d1.length : Int) ≠ h.size) (h2 : (d2.length : Int) = h.size) :
    h.parse d1 = (h, some (.valueError
        ("Input data needs to be exactly " ++ toString h.size ++ " bytes long!")))
    ∧ h.parse d2
      = (⟨h.fields.map fun f => { f with value := bytes_to_int d2 f.offset f.size }⟩, none) := by
  constructor
  · rw [PacketHeader.parse, if_pos h1]
  · rw [PacketHeader.parse, if_neg (not_not_intro h2)]

/-- C7 witness: an 8-byte header rejects a 7-byte buffer unchanged (the spec's
own example) and decodes an 8-byte buffer into its two fields. -/
theorem C7_parse_witness :
    (PacketHeader.mk [⟨"address", 0, 4, 7⟩, ⟨"data_length", 4, 4, 5⟩]).parse
        [0, 0, 0, 0, 0, 0, 0]
      = (PacketHeader.mk [⟨"address", 0, 4, 7⟩, ⟨"data_length", 4, 4, 5⟩],
          some (.valueError "Input data needs to be exactly 8 bytes long!"))
    ∧ (PacketHeader.mk [⟨"address", 0, 4, 7⟩, ⟨"data_length", 4, 4, 5⟩]).parse
        [0, 0, 1, 4, 0, 0, 0, 9]
      = (PacketHeader.mk [⟨"address", 0, 4, 260⟩, ⟨"data_length", 4, 4, 9⟩], none) := by
  have h := C7_parse_length_enforcement
    (PacketHeader.mk [⟨"address", 0, 4, 7⟩, ⟨"data_length", 4, 4, 5⟩])
    [0, 0, 0, 0, 0, 0, 0] [0, 0, 1, 4, 0, 0, 0, 9] (by decide) (by decide)
  revert h
  decide

/-- C8: `size` is the sum of all field sizes, and `is_continuous` holds exactly
when every adjacent pair of the offset-ordered field list satisfies
`earlier.end + 1 = later.offset`; concretely, the header built from
`(address, 0, 4)` and `(success, 4, 1)` is continuous with size 5, while the
header with fields at offsets 0 (size 4) and 5 (size 1) is not continuous. -/
theorem C8_continuity_and_size (h : PacketHeader) :
    (h.is_continuous = true
      ↔ List.Chain' (fun f g => f.endByte + 1 = g.offset) h.fields)
    ∧ h.size = (h.fields.map Field.size).sum
    ∧ PacketHeader.init [⟨"address", 0, 4, 0⟩, ⟨"success", 4, 1, 0⟩]
        = .ok (PacketHeader.mk [⟨"address", 0, 4, 0⟩, ⟨"success", 4, 1, 0⟩])
    ∧ (PacketHeader.mk [⟨"address", 0, 4, 0⟩, ⟨"success", 4, 1, 0⟩]).is_continuous = true
    ∧ (PacketHeader.mk [⟨"address", 0, 4, 0⟩, ⟨"success", 4, 1, 0⟩]).size = 5
    ∧ PacketHeader.init [⟨"address", 0, 4, 0⟩, ⟨"success", 5, 1, 0⟩]
        = .ok (PacketHeader.mk [⟨"address", 0, 4, 0⟩, ⟨"success", 5, 1, 0⟩])
    ∧ (PacketHeader.mk [⟨"address", 0, 4, 0⟩, ⟨"success", 5, 1, 0⟩]).is_continuous = false := by
  exact ⟨continuousPairs_iff_chain h.fields, rfl,
    by decide, by decide, by decide, by decide, by decide⟩

/-- C9: whenever `add_field f` raises no overlap error, the field now stored
under the key `f.name` is exactly `f` — offset, size and value included — and
field names remain unique; in particular a previously stored field with the
same name is replaced, since the duplicate guard compares the `Field` object
against string keys and never treats `f` as present. -/
theorem C9_add_field_stores_new_field (h h' : PacketHeader) (f : Field)
    (hnd : (h.fields.map Field.name).Nodup)
    (hok : h.add_field f = .ok h') :
    h'.find? f.name = some f ∧ (h'.fields.map Field.name).Nodup := by
  rw [PacketHeader.add_field] at hok
  simp only [pyFieldEqStr, List.any_eq_true, Bool.false_eq_true, and_false,
    exists_false, if_false] at hok
  have hperm : List.Perm (sortFieldsByOffset (dictSet h.fields f)) (dictSet h.fields f) :=
    List.perm_insertionSort Field.leOffset (dictSet h.fields f)
  cases hco : checkForOverlaps (sortFieldsByOffset (dictSet h.fields f)) with
  | some e =>
      rw [hco] at hok
      exact absurd hok (by simp)
  | none =>
      rw [hco] at hok
      have hfields : h'.fields = sortFieldsByOffset (dictSet h.fields f) := by
        cases hok
        rfl
      constructor
      · rw [PacketHeader.find?, hfields]
        have hmem : f ∈ sortFieldsByOffset (dictSet h.fields f) :=
          hperm.mem_iff.mpr (mem_dictSet_self h.fields f)
        cases hfind : (sortFieldsByOffset (dictSet h.fields f)).find?
            (fun g => g.name == f.name) with
        | none =>
            exact absurd (beq_self_eq_true f.name)
              (by simpa using List.find?_eq_none.mp hfind f hmem)
        | some g =>
            have hp := List.find?_some hfind
            simp only [beq_iff_eq] at hp
            have hm : g ∈ dictSet h.fields f :=
              hperm.mem_iff.mp (List.mem_of_find?_eq_some hfind)
            rw [eq_of_mem_dictSet h.fields f hnd g hm hp]
      · rw [hfields]
        exact ((hperm.map Field.name).nodup_iff).mpr (nodup_names_dictSet h.fields f hnd)

/-- C9 witness: adding a field named `operation` to a header that already holds
a different field of the same name stores the new field (offset, size and value
included) and keeps names unique. -/
theorem C9_add_field_witness :
    (PacketHeader.mk [⟨"operation", 0, 2, 7⟩]).find? "operation" = some ⟨"operation", 0, 2, 7⟩
    ∧ ((PacketHeader.mk [⟨"operation", 0, 2, 7⟩]).fields.map Field.name).Nodup := by
  have h := C9_add_field_stores_new_field
    (PacketHeader.mk [⟨"operation", 0, 1, 3⟩]) (PacketHeader.mk [⟨"operation", 0, 2, 7⟩])
    ⟨"operation", 0, 2, 7⟩ (by decide) (by decide)
  revert h
  decide

/-- C10: on a header with no `operation` field every semantic predicate raises
`KeyError` — that half of the claim holds. The second half fails: on a header
whose `operation` value is the integer write opcode 9 but which lacks a
`safeload` field, `is_safeload` returns `False` instead of raising `KeyError`,
because `is_write_request` compares the `int` 9 with the `Enum` member
`WRITE_KEY` — always `False` in Python — and the `and` short-circuits before
the `safeload` lookup. -/
theorem C10_predicate_lookup_errors :
    ((PacketHeader.mk [⟨"address", 0, 2, 0⟩]).is_write_request
        = .error (.keyError "operation")
      ∧ (PacketHeader.mk [⟨"address", 0, 2, 0⟩]).is_read_request
        = .error (.keyError "operation")
      ∧ (PacketHeader.mk [⟨"address", 0, 2, 0⟩]).is_read_response
        = .error (.keyError "operation")
      ∧ (PacketHeader.mk [⟨"address", 0, 2, 0⟩]).is_safeload
        = .error (.keyError "operation")
      ∧ (PacketHeader.mk [⟨"address", 0, 2, 0⟩]).carries_payload
        = .error (.keyError "operation"))
    ∧ (PacketHeader.mk [⟨"operation", 0, 1, 9⟩]).is_safeload = .ok false := by
  decide

end Sigmadsp
